import Mathlib

/-!
Verification of the Instance Registry and Fetch Resolution Engine of the
nomos-provider-file repository (the multi-instance `FileProviderService` in
`internal/provider/service.go`).

The embedding translates the Go service into pure Lean functions:

* Go maps (`configs`, `directoryRegistry`, instance file indices) become
  association lists (`List (String × _)`) with `alookup` / `aerase` /
  `ainsert` providing the map operations used by the source; all reachable
  states keep their keys unique, so list length coincides with Go's
  `len(map)`.
* Filesystem effects consulted by `Init` (`filepath.IsAbs`/`Join`/`Abs`,
  `os.Stat`, `IsDir`, `canonicalizePath`, `enumerateCSLFiles`) are external
  to the engine; each `Init` call observes them through an `FsOracle` value
  holding the outcome of each call, exactly in the order the source
  consults them.
* The Document Store (`parseCSLFile`) is likewise a parameter
  `parse : String → Except String Value` mapping an absolute file path to a
  parsed document or a parse error.
* gRPC status codes become the `ErrCode` inductive.  The spec's error
  taxonomy maps onto these codes as the source realises it:
  `InvalidInput` = `invalidArgument`, `NotFound` = `notFound`,
  `Conflict` = `failedPrecondition` (the spec itself calls `Conflict`
  "a precondition failure, not a caller input error"), and
  `Internal` = `internal`.
* The read-only handlers (`Fetch`, `Info`, `Health`) never assign to any
  service field in the source; they are embedded as pure functions from the
  state, so they preserve the registry state by construction.
-/

namespace FileProvider

/-- A parsed configuration document: the `any` values produced by
`parseCSLFile` are strings (all scalar AST nodes convert to strings),
lists, or string-keyed maps. -/
inductive Value where
  | str (s : String)
  | list (l : List Value)
  | map (entries : List (String × Value))

/-- Association-list lookup; the embedding of Go's `m[k]` read. -/
def alookup {α : Type} : List (String × α) → String → Option α
  | [], _ => none
  | (k, v) :: rest, key => if k = key then some v else alookup rest key

/-- Association-list key removal; the embedding of Go's `delete(m, k)`. -/
def aerase {α : Type} : List (String × α) → String → List (String × α)
  | [], _ => []
  | (k, v) :: rest, key =>
      if k = key then aerase rest key else (k, v) :: aerase rest key

/-- Association-list insertion; the embedding of Go's `m[k] = v`
(overwriting any previous binding of `k`). -/
def ainsert {α : Type} (l : List (String × α)) (key : String) (v : α) :
    List (String × α) :=
  (key, v) :: aerase l key

/-- `instanceConfig`: configuration of one logical provider instance
(field `aliasName` embeds the source field `alias`, which is a reserved
word in Lean). -/
structure InstanceConfig where
  aliasName : String
  directory : String
  cslFiles : List (String × String)
  initialized : Bool
deriving DecidableEq

/-- The mutable registry state of `FileProviderService`: `configs`
(alias → instance), `directoryRegistry` (canonical path → alias) and
`initOrder` (aliases in initialization order). -/
structure ServiceState where
  configs : List (String × InstanceConfig)
  directoryRegistry : List (String × String)
  initOrder : List String
deriving DecidableEq

/-- The state `NewFileProviderService` starts from: no instances. -/
def emptyState : ServiceState :=
  { configs := [], directoryRegistry := [], initOrder := [] }

/-- The gRPC status codes the service returns. -/
inductive ErrCode where
  | invalidArgument
  | notFound
  | failedPrecondition
  | internal
deriving DecidableEq

/-- A `status.Errorf` result: code plus formatted message. -/
structure ErrInfo where
  code : ErrCode
  msg : String
deriving DecidableEq

/-- Go's `%q` formatting of a string (quotation marks around the value). -/
def quoteS (x : String) : String := "\"" ++ x ++ "\""

/-- A value held in the `InitRequest.Config` struct under some key: the
source only distinguishes strings from every other type (`%T` prints the
non-string type's name). -/
inductive ConfigValue where
  | str (s : String)
  | other (typeName : String)
deriving DecidableEq

/-- `InitRequest`: alias, config map, optional source-file path. -/
structure InitRequest where
  aliasName : String
  config : List (String × ConfigValue)
  sourceFilePath : String

/-- Outcome of the `os.Stat(absPath)` call followed by `info.IsDir()`. -/
inductive StatOutcome where
  | errNotExist
  | errOther (msg : String)
  | ok (isDir : Bool)
deriving DecidableEq

/-- The filesystem answers one `Init` call observes, in source order:
`filepath.IsAbs(dirStr)`, the `filepath.Join(Dir(src), dirStr)` result,
the `filepath.Abs(dirStr)` result, the `os.Stat`/`IsDir` outcome, the
`canonicalizePath` result, and the `enumerateCSLFiles` result (basename →
absolute path pairs). -/
structure FsOracle where
  isAbsDir : Bool
  joined : String
  absResult : Except String String
  statOutcome : StatOutcome
  canonResult : Except String String
  enumResult : Except String (List (String × String))

/-- Absolute-path resolution step of `Init`: relative paths with a
source-file location join against it, otherwise `filepath.Abs` decides
(and may fail). -/
def absResolve (sourceFilePath : String) (o : FsOracle) :
    Except String String :=
  if o.isAbsDir = false ∧ sourceFilePath ≠ "" then Except.ok o.joined
  else o.absResult

/-- One iteration of `rollbackAll`'s loop for one alias: remove the alias
from `configs` and, when its directory is non-empty, drop the directory's
registry entry. -/
def rollbackStep (s : ServiceState) (a : String) : ServiceState :=
  match alookup s.configs a with
  | some cfg =>
      { s with
        configs := aerase s.configs a,
        directoryRegistry :=
          if cfg.directory ≠ "" then aerase s.directoryRegistry cfg.directory
          else s.directoryRegistry }
  | none => s

/-- `rollbackAll`: walk `initOrder` in reverse removing every committed
instance, then clear `initOrder`. -/
def rollbackAll (s : ServiceState) : ServiceState :=
  let s' := s.initOrder.reverse.foldl rollbackStep s
  { s' with initOrder := [] }

/-- The failure pattern every `Init` validation step (except the
duplicate-directory check) follows: when at least one instance is
committed, roll everything back and append the rollback count to the
message; otherwise fail with the plain message and leave the state
untouched. -/
def rollbackOr (s : ServiceState) (c : ErrCode) (rbMsg plainMsg : String) :
    ServiceState × Except ErrInfo Unit :=
  if 0 < s.initOrder.length then
    (rollbackAll s,
     Except.error
       ⟨c, rbMsg ++ "; rolled back all " ++ toString s.initOrder.length ++
           " instance(s)"⟩)
  else (s, Except.error ⟨c, plainMsg⟩)

/-- The `alias "<a>": ` prefix `Init`'s error messages carry. -/
def aliasPre (a : String) : String := "alias " ++ quoteS a ++ ": "

/-- The duplicate-canonical-directory error message. -/
def dupDirMsg (canonicalPath existingAlias newAlias : String) : String :=
  "directory " ++ quoteS canonicalPath ++
  " already registered by provider instance " ++ quoteS existingAlias ++
  ", cannot register as " ++ quoteS newAlias

/-- The commit step of a successful `Init`: add the new instance to
`configs`, index its canonical directory, append the alias to
`initOrder`. -/
def commit (s : ServiceState) (a canonicalPath : String)
    (files : List (String × String)) : ServiceState :=
  { configs :=
      ainsert s.configs a
        { aliasName := a, directory := canonicalPath, cslFiles := files,
          initialized := true },
    directoryRegistry := ainsert s.directoryRegistry canonicalPath a,
    initOrder := s.initOrder ++ [a] }

/-- `Init`: the multi-instance registration sequence of
`FileProviderService.Init`, step for step — empty-alias check, duplicate
alias check, `directory` config extraction and type check, absolute-path
resolution, stat/IsDir, canonicalization, duplicate-canonical-directory
check (failing without rollback), file enumeration, and the commit. -/
def init (s : ServiceState) (req : InitRequest) (o : FsOracle) :
    ServiceState × Except ErrInfo Unit :=
  if req.aliasName = "" then
    rollbackOr s ErrCode.invalidArgument
      (aliasPre req.aliasName ++ "alias cannot be empty")
      "alias cannot be empty"
  else if (alookup s.configs req.aliasName).isSome then
    rollbackOr s ErrCode.failedPrecondition
      (aliasPre req.aliasName ++ "provider instance already initialized")
      (aliasPre req.aliasName ++ "provider instance already initialized")
  else
    match alookup req.config "directory" with
    | none =>
        rollbackOr s ErrCode.invalidArgument
          (aliasPre req.aliasName ++ "missing required config key 'directory'")
          (aliasPre req.aliasName ++ "missing required config key 'directory'")
    | some (ConfigValue.other tn) =>
        rollbackOr s ErrCode.invalidArgument
          (aliasPre req.aliasName ++ "directory must be a string, got " ++ tn)
          (aliasPre req.aliasName ++ "directory must be a string, got " ++ tn)
    | some (ConfigValue.str _) =>
        match absResolve req.sourceFilePath o with
        | Except.error e =>
            rollbackOr s ErrCode.invalidArgument
              (aliasPre req.aliasName ++
                "failed to resolve path to absolute: " ++ e)
              (aliasPre req.aliasName ++
                "failed to resolve path to absolute: " ++ e)
        | Except.ok absPath =>
            match o.statOutcome with
            | StatOutcome.errNotExist =>
                rollbackOr s ErrCode.notFound
                  (aliasPre req.aliasName ++ "directory does not exist: " ++
                    absPath)
                  (aliasPre req.aliasName ++ "directory does not exist: " ++
                    absPath)
            | StatOutcome.errOther m =>
                rollbackOr s ErrCode.internal
                  (aliasPre req.aliasName ++ "failed to stat directory: " ++ m)
                  (aliasPre req.aliasName ++ "failed to stat directory: " ++ m)
            | StatOutcome.ok isDir =>
                if isDir = false then
                  rollbackOr s ErrCode.invalidArgument
                    (aliasPre req.aliasName ++ "path is not a directory: " ++
                      absPath)
                    (aliasPre req.aliasName ++ "path is not a directory: " ++
                      absPath)
                else
                  match o.canonResult with
                  | Except.error e =>
                      rollbackOr s ErrCode.internal
                        (aliasPre req.aliasName ++
                          "failed to canonicalize path: " ++ e)
                        (aliasPre req.aliasName ++
                          "failed to canonicalize path: " ++ e)
                  | Except.ok canonicalPath =>
                      match alookup s.directoryRegistry canonicalPath with
                      | some existingAlias =>
                          (s, Except.error
                                ⟨ErrCode.failedPrecondition,
                                 dupDirMsg canonicalPath existingAlias
                                   req.aliasName⟩)
                      | none =>
                          match o.enumResult with
                          | Except.error e =>
                              rollbackOr s ErrCode.internal
                                (aliasPre req.aliasName ++
                                  "failed to enumerate .csl files: " ++ e)
                                (aliasPre req.aliasName ++
                                  "failed to enumerate .csl files: " ++ e)
                          | Except.ok cslFiles =>
                              (commit s req.aliasName canonicalPath cslFiles,
                               Except.ok ())

/-- `Shutdown`: unconditionally clear all three registry structures and
report success (the source handler never returns an error). -/
def shutdown (s : ServiceState) : ServiceState × Except ErrInfo Unit :=
  ({ configs := [], directoryRegistry := [],
     initOrder := s.initOrder.take 0 },
   Except.ok ())

/-- `toProtoStruct`: a map converts as-is; any other value is wrapped in a
single-entry map under the fixed key `value`. -/
def toProtoStruct : Value → Value
  | Value.map m => Value.map m
  | v => Value.map [("value", v)]

/-- The four outcomes of `Fetch`'s first-segment disambiguation. -/
inductive FetchMode where
  | explicitMode (cfg : InstanceConfig)
  | implicitMode (cfg : InstanceConfig)
  | notInitialized
  | ambiguousAlias

/-- Mode detection on segment 0, exactly as `Fetch` decides it: a
registered alias wins; otherwise zero instances, exactly one instance, or
several instances determine the outcome. -/
def detectMode (s : ServiceState) (p0 : String) : FetchMode :=
  match alookup s.configs p0 with
  | some cfg => FetchMode.explicitMode cfg
  | none =>
      match s.configs with
      | [] => FetchMode.notInitialized
      | [(_, cfg)] => FetchMode.implicitMode cfg
      | _ => FetchMode.ambiguousAlias

/-- Go's `%v` rendering of the `[]string` request path. -/
def pathToString (p : List String) : String :=
  "[" ++ String.intercalate " " p ++ "]"

/-- The ambiguous-first-segment error message of `Fetch`. -/
def ambiguousMsg (p0 : String) : String :=
  "provider instance " ++ quoteS p0 ++
  " not found (hint: with multiple instances, path must start with alias)"

/-- Nested navigation loop of `Fetch`: each remaining segment requires the
current value to be a map (else `InvalidArgument` naming the segment's
index in the full path) and the key to be present (else `NotFound`). -/
def navGo (fullPath : List String) (file aliasName : String) :
    Value → List String → Nat → Except ErrInfo Value
  | current, [], _ => Except.ok current
  | current, key :: rest, idx =>
      match current with
      | Value.map m =>
          match alookup m key with
          | some v => navGo fullPath file aliasName v rest (idx + 1)
          | none =>
              Except.error
                ⟨ErrCode.notFound,
                 "path element " ++ quoteS key ++ " not found in file " ++
                 quoteS file ++ " (provider instance " ++ quoteS aliasName ++
                 ")"⟩
      | _ =>
          Except.error
            ⟨ErrCode.invalidArgument,
             "cannot navigate to path " ++ pathToString fullPath ++
             ": element at index " ++ toString idx ++ " is not a map"⟩

/-- File lookup, parse and navigation tail of `Fetch`, shared by the
explicit and implicit modes; `startIdx` is `pathOffset + 1`. -/
def fetchFile (cfg : InstanceConfig) (baseName : String)
    (nested : List String) (fullPath : List String) (startIdx : Nat)
    (parse : String → Except String Value) : Except ErrInfo Value :=
  match alookup cfg.cslFiles baseName with
  | none =>
      Except.error
        ⟨ErrCode.notFound,
         "file " ++ quoteS baseName ++ " not found in provider instance " ++
         quoteS cfg.aliasName⟩
  | some filePath =>
      match parse filePath with
      | Except.error e =>
          Except.error
            ⟨ErrCode.internal,
             "failed to parse .csl file " ++ quoteS filePath ++ ": " ++ e⟩
      | Except.ok data =>
          match navGo fullPath baseName cfg.aliasName data nested startIdx with
          | Except.error e => Except.error e
          | Except.ok v => Except.ok (toProtoStruct v)

/-- `Fetch`: path validation, mode detection, file resolution, nested
navigation and result shaping, exactly as the multi-instance source. -/
def fetch (s : ServiceState) (path : List String)
    (parse : String → Except String Value) : Except ErrInfo Value :=
  match path with
  | [] => Except.error ⟨ErrCode.invalidArgument, "path cannot be empty"⟩
  | p0 :: rest =>
      if p0 = "" then
        Except.error ⟨ErrCode.invalidArgument, "path[0] cannot be empty"⟩
      else
        match detectMode s p0 with
        | FetchMode.explicitMode cfg =>
            match rest with
            | [] =>
                Except.error
                  ⟨ErrCode.invalidArgument,
                   "path must contain at least [alias, filename]"⟩
            | baseName :: nested => fetchFile cfg baseName nested path 2 parse
        | FetchMode.implicitMode cfg => fetchFile cfg p0 rest path 1 parse
        | FetchMode.notInitialized =>
            Except.error
              ⟨ErrCode.failedPrecondition, "no provider instances initialized"⟩
        | FetchMode.ambiguousAlias =>
            Except.error ⟨ErrCode.notFound, ambiguousMsg p0⟩

/-- Modelled from the spec: the reserved wildcard path token of §3/§4.2.
The wildcard resolution engine (merge-all and trailing map expansion,
added in the changelog's 0.3.2 entry) is code of this repository missing
from src; the spec fixes `*` as the token. -/
def wildcardToken : String := "*"

mutual

/-- Modelled from the spec: deep-merge of two documents (§4.2) — merging
two maps recurses key-by-key; in every other combination the later source
wins. -/
def deepMerge : Value → Value → Value
  | Value.map m1, Value.map m2 =>
      Value.map
        (mergeEntries m1 m2 ++
         m2.filter (fun kv => (alookup m1 kv.1).isNone))
  | _, v2 => v2
termination_by a _ => sizeOf a

/-- Modelled from the spec: the key-by-key pass of deep-merge over the
earlier map's entries; keys present only in the earlier map pass through
unchanged, colliding keys merge recursively. -/
def mergeEntries :
    List (String × Value) → List (String × Value) → List (String × Value)
  | [], _ => []
  | (k, v) :: rest, m2 =>
      (k, mergeInto v (alookup m2 k)) :: mergeEntries rest m2
termination_by l _ => sizeOf l

/-- Modelled from the spec: merge one earlier-map value with the later
map's binding of the same key, when present. -/
def mergeInto (v : Value) : Option Value → Value
  | some v2 => deepMerge v v2
  | none => v
termination_by _ => sizeOf v + 1

end

/-- Lexicographic comparison of character lists by code point. -/
def charListLe : List Char → List Char → Bool
  | [], _ => true
  | _ :: _, [] => false
  | x :: xs, y :: ys =>
      if x.val < y.val then true
      else if y.val < x.val then false
      else charListLe xs ys

/-- Lexicographic string comparison (ascending), used to order basenames
for the wildcard merge. -/
def strLe (a b : String) : Bool := charListLe a.data b.data

/-- Insertion of one basename/path pair into a list sorted by basename. -/
def insertByKey (x : String × String) :
    List (String × String) → List (String × String)
  | [] => [x]
  | y :: ys => if strLe x.1 y.1 then x :: y :: ys else y :: insertByKey x ys

/-- Sort a file index lexicographically ascending by basename. -/
def sortByKey (l : List (String × String)) : List (String × String) :=
  l.foldr insertByKey []

/-- Modelled from the spec: parse the sorted files in order and deep-merge
them left-to-right into the accumulator; a parse failure is `Internal`. -/
def mergeFold (parse : String → Except String Value) :
    List (String × String) → Value → Except ErrInfo Value
  | [], acc => Except.ok acc
  | (_, fp) :: rest, acc =>
      match parse fp with
      | Except.error e =>
          Except.error
            ⟨ErrCode.internal,
             "failed to parse .csl file " ++ quoteS fp ++ ": " ++ e⟩
      | Except.ok doc => mergeFold parse rest (deepMerge acc doc)

/-- Modelled from the spec: the wildcard merged document — every file of
the instance's index, basenames sorted lexicographically ascending, parsed
in that order and deep-merged left-to-right (§4.2). -/
def mergedDoc (files : List (String × String))
    (parse : String → Except String Value) : Except ErrInfo Value :=
  mergeFold parse (sortByKey files) (Value.map [])

/-- Modelled from the spec: nested navigation with the trailing-wildcard
rule (§4.2) — a wildcard that is the last remaining segment returns the
current value verbatim when it is a map and fails `InvalidInput`
otherwise; any other segment requires a map and descends by key. -/
def navigateSpec : Value → List String → Except ErrInfo Value
  | v, [] => Except.ok v
  | v, seg :: rest =>
      if seg = wildcardToken ∧ rest = [] then
        match v with
        | Value.map m => Except.ok (Value.map m)
        | _ =>
            Except.error
              ⟨ErrCode.invalidArgument,
               "trailing wildcard applied to a value that is not a map"⟩
      else
        match v with
        | Value.map m =>
            match alookup m seg with
            | some v2 => navigateSpec v2 rest
            | none =>
                Except.error
                  ⟨ErrCode.notFound, "key " ++ quoteS seg ++ " not found"⟩
        | _ => Except.error ⟨ErrCode.invalidArgument, "not a map"⟩

/-- Modelled from the spec: file resolution of one Fetch — a wildcard
filename segment builds the merged document, any other segment addresses
one file of the index; then nested navigation and result shaping. -/
def fetchSpecFile (cfg : InstanceConfig) (fileSeg : String)
    (nested : List String) (parse : String → Except String Value) :
    Except ErrInfo Value :=
  let docE : Except ErrInfo Value :=
    if fileSeg = wildcardToken then mergedDoc cfg.cslFiles parse
    else
      match alookup cfg.cslFiles fileSeg with
      | none =>
          Except.error
            ⟨ErrCode.notFound,
             "file " ++ quoteS fileSeg ++
             " not found in provider instance " ++ quoteS cfg.aliasName⟩
      | some fp =>
          match parse fp with
          | Except.error e =>
              Except.error
                ⟨ErrCode.internal,
                 "failed to parse .csl file " ++ quoteS fp ++ ": " ++ e⟩
          | Except.ok d => Except.ok d
  match docE with
  | Except.error e => Except.error e
  | Except.ok d =>
      match navigateSpec d nested with
      | Except.error e => Except.error e
      | Except.ok v => Except.ok (toProtoStruct v)

/-- Modelled from the spec: the full Fetch resolution of §4.2 with
wildcard support — validation and mode detection as in the source, file
resolution with the wildcard merge, spec navigation, result shaping. -/
def fetchSpec (s : ServiceState) (path : List String)
    (parse : String → Except String Value) : Except ErrInfo Value :=
  match path with
  | [] => Except.error ⟨ErrCode.invalidArgument, "path cannot be empty"⟩
  | p0 :: rest =>
      if p0 = "" then
        Except.error ⟨ErrCode.invalidArgument, "path[0] cannot be empty"⟩
      else
        match detectMode s p0 with
        | FetchMode.explicitMode cfg =>
            match rest with
            | [] =>
                Except.error
                  ⟨ErrCode.invalidArgument,
                   "path must contain at least [alias, filename]"⟩
            | fileSeg :: nested => fetchSpecFile cfg fileSeg nested parse
        | FetchMode.implicitMode cfg => fetchSpecFile cfg p0 rest parse
        | FetchMode.notInitialized =>
            Except.error
              ⟨ErrCode.failedPrecondition, "no provider instances initialized"⟩
        | FetchMode.ambiguousAlias =>
            Except.error ⟨ErrCode.notFound, ambiguousMsg p0⟩

/-- The registry consistency invariant: `initOrder` is duplicate-free and
holds exactly the committed aliases; every instance's directory is indexed
back to its alias; every index entry points at an instance with that
directory. -/
def Inv (s : ServiceState) : Prop :=
  s.initOrder.Nodup ∧
  (∀ a, a ∈ s.initOrder ↔ (alookup s.configs a).isSome) ∧
  (∀ a cfg, alookup s.configs a = some cfg →
      cfg.aliasName = a ∧ alookup s.directoryRegistry cfg.directory = some a) ∧
  (∀ d a, alookup s.directoryRegistry d = some a →
      ∃ cfg, alookup s.configs a = some cfg ∧ cfg.directory = d)

/-- All committed instances carry a non-empty canonical directory.  This
holds on every reachable state because `canonicalizePath` goes through
`filepath.Clean`, which never returns the empty string. -/
def Dirs (s : ServiceState) : Prop :=
  ∀ a cfg, alookup s.configs a = some cfg → cfg.directory ≠ ""

/-- The condition under which `Init` hits the duplicate-canonical-directory
check: every earlier validation step passed and the canonical path is
already registered. -/
def dupDirHit (s : ServiceState) (req : InitRequest) (o : FsOracle) : Prop :=
  req.aliasName ≠ "" ∧
  alookup s.configs req.aliasName = none ∧
  (∃ dirStr, alookup req.config "directory" = some (ConfigValue.str dirStr)) ∧
  (∃ ap, absResolve req.sourceFilePath o = Except.ok ap) ∧
  o.statOutcome = StatOutcome.ok true ∧
  (∃ c, o.canonResult = Except.ok c ∧
        (alookup s.directoryRegistry c).isSome)

/-- The committed instance of Scenario E's first registration. -/
def cfg1 : InstanceConfig :=
  { aliasName := "first", directory := "/data/dir1",
    cslFiles := [("db", "/data/dir1/db.csl")], initialized := true }

/-- The registry after `Init("first", dir1)` succeeded. -/
def s1 : ServiceState :=
  { configs := [("first", cfg1)],
    directoryRegistry := [("/data/dir1", "first")],
    initOrder := ["first"] }

/-- A second `Init` request naming the same canonical directory. -/
def req2 : InitRequest :=
  { aliasName := "second",
    config := [("directory", ConfigValue.str "/data/dir1")],
    sourceFilePath := "" }

/-- Oracle for `req2`: stat succeeds on a directory and canonicalization
lands on the already-registered path. -/
def oDup : FsOracle :=
  { isAbsDir := true, joined := "",
    absResult := Except.ok "/data/dir1",
    statOutcome := StatOutcome.ok true,
    canonResult := Except.ok "/data/dir1",
    enumResult := Except.ok [("db", "/data/dir1/db.csl")] }

/-- An `Init` request with an empty alias (fails at step 1). -/
def reqEmptyAlias : InitRequest :=
  { aliasName := "", config := [], sourceFilePath := "" }

/-- An oracle whose filesystem answers are never reached. -/
def oIdle : FsOracle :=
  { isAbsDir := true, joined := "",
    absResult := Except.error "unused",
    statOutcome := StatOutcome.errNotExist,
    canonResult := Except.error "unused",
    enumResult := Except.error "unused" }

/-- The sole instance `x` of Scenario B/F. -/
def cfgX : InstanceConfig :=
  { aliasName := "x", directory := "/data/x",
    cslFiles := [("app", "/data/x/app.csl")], initialized := true }

/-- Registry holding exactly the instance `x`. -/
def sX : ServiceState :=
  { configs := [("x", cfgX)],
    directoryRegistry := [("/data/x", "x")],
    initOrder := ["x"] }

/-- Document Store of Scenario B/F: `app.csl` holds a single scalar field
`name`. -/
def parseX (fp : String) : Except String Value :=
  if fp = "/data/x/app.csl" then
    Except.ok (Value.map [("name", Value.str "myapp")])
  else Except.error "no such file"

/-- The instance of Scenario D: two files, listed out of order to exercise
the lexicographic sort. -/
def cfgD : InstanceConfig :=
  { aliasName := "d", directory := "/data/d",
    cslFiles := [("beta", "/data/d/beta.csl"), ("alpha", "/data/d/alpha.csl")],
    initialized := true }

/-- Registry holding exactly the Scenario D instance. -/
def sD : ServiceState :=
  { configs := [("d", cfgD)],
    directoryRegistry := [("/data/d", "d")],
    initOrder := ["d"] }

/-- The entry list of the deep-merge of two maps: the earlier map's
entries merged key-by-key, then the later map's entries whose keys the
earlier map lacks. -/
def mergeMaps (m1 m2 : List (String × Value)) : List (String × Value) :=
  mergeEntries m1 m2 ++ m2.filter (fun kv => (alookup m1 kv.1).isNone)

/-- Scenario D's `alpha` document. -/
def docAlpha : Value :=
  Value.map [("app", Value.map [("name", Value.str "alpha"),
                                ("port", Value.str "1111")])]

/-- Scenario D's `beta` document. -/
def docBeta : Value :=
  Value.map [("app", Value.map [("port", Value.str "2222"),
                                ("env", Value.str "prod")])]

/-- Scenario D's expected merged document. -/
def docMergedD : Value :=
  Value.map [("app", Value.map [("name", Value.str "alpha"),
                                ("port", Value.str "2222"),
                                ("env", Value.str "prod")])]

/-- A second `Init` request reusing the already-registered alias `x`. -/
def reqX2 : InitRequest :=
  { aliasName := "x", config := [], sourceFilePath := "" }

/-- Document Store of Scenario D. -/
def parseD (fp : String) : Except String Value :=
  if fp = "/data/d/alpha.csl" then
    Except.ok
      (Value.map
        [("app", Value.map [("name", Value.str "alpha"),
                            ("port", Value.str "1111")])])
  else if fp = "/data/d/beta.csl" then
    Except.ok
      (Value.map
        [("app", Value.map [("port", Value.str "2222"),
                            ("env", Value.str "prod")])])
  else Except.error "no such file"

theorem alookup_aerase {α : Type} (l : List (String × α)) (k key : String) :
    alookup (aerase l k) key = if k = key then none else alookup l key := by
  induction l with
  | nil => simp [aerase, alookup]
  | cons hd tl ih =>
      obtain ⟨a, b⟩ := hd
      by_cases hak : a = k
      · subst hak
        by_cases hk : a = key
        · subst hk
          simp [aerase, alookup, ih]
        · simp [aerase, alookup, ih, hk]
      · by_cases hk : a = key
        · subst hk
          have : ¬ k = a := fun h => hak h.symm
          simp [aerase, alookup, hak, this]
        · simp [aerase, alookup, hak, hk, ih]

theorem alookup_ainsert {α : Type} (l : List (String × α)) (k : String)
    (v : α) (key : String) :
    alookup (ainsert l k v) key = if k = key then some v else alookup l key := by
  by_cases hk : k = key
  · subst hk
    simp [ainsert, alookup]
  · simp [ainsert, alookup, hk, alookup_aerase]

theorem eq_nil_of_alookup_none {α : Type} (l : List (String × α))
    (h : ∀ k, alookup l k = none) : l = [] := by
  cases l with
  | nil => rfl
  | cons hd tl =>
      obtain ⟨a, b⟩ := hd
      have := h a
      simp [alookup] at this

theorem rollbackFold_empty (l : List String) :
    ∀ (s : ServiceState),
      (∀ a, (alookup s.configs a).isSome → a ∈ l) →
      (∀ a cfg, alookup s.configs a = some cfg →
          alookup s.directoryRegistry cfg.directory = some a ∧
          cfg.directory ≠ "") →
      (∀ d a, alookup s.directoryRegistry d = some a →
          ∃ cfg, alookup s.configs a = some cfg ∧ cfg.directory = d) →
      (l.foldl rollbackStep s).configs = [] ∧
      (l.foldl rollbackStep s).directoryRegistry = [] := by
  induction l with
  | nil =>
      intro s hk hc hd
      have hcfg : s.configs = [] := by
        apply eq_nil_of_alookup_none
        intro k
        by_contra hne
        have : (alookup s.configs k).isSome := by
          cases h : alookup s.configs k
          · exact absurd h hne
          · simp
        exact absurd (hk k this) (List.not_mem_nil k)
      refine ⟨hcfg, ?_⟩
      apply eq_nil_of_alookup_none
      intro d
      by_contra hne
      cases h : alookup s.directoryRegistry d with
      | none => exact hne h
      | some a =>
          obtain ⟨cfg, hcfg', _⟩ := hd d a h
          rw [hcfg] at hcfg'
          simp [alookup] at hcfg'
  | cons x t ih =>
      intro s hk hc hd
      simp only [List.foldl_cons]
      apply ih
      · -- keys of the post-step configs lie in t
        intro a ha
        cases hx : alookup s.configs x with
        | none =>
            simp only [rollbackStep, hx] at ha
            have hmem := hk a ha
            have hax : a ≠ x := by
              intro h
              subst h
              cases h' : alookup s.configs a
              · rw [h'] at ha
                simp at ha
              · rw [h'] at hx
                cases hx
            rcases List.mem_cons.mp hmem with h | h
            · exact absurd h hax
            · exact h
        | some cfg =>
            have hdir := (hc x cfg hx).2
            simp only [rollbackStep, hx, if_pos hdir] at ha
            rw [alookup_aerase] at ha
            by_cases hax : x = a
            · simp [hax] at ha
            · rw [if_neg hax] at ha
              have hmem := hk a ha
              rcases List.mem_cons.mp hmem with h | h
              · exact absurd h.symm hax
              · exact h
      · -- mutual consistency survives the step
        intro a cfg ha
        cases hx : alookup s.configs x with
        | none =>
            simp only [rollbackStep, hx] at ha ⊢
            exact hc a cfg ha
        | some cfgx =>
            have hdirx := (hc x cfgx hx).2
            simp only [rollbackStep, hx, if_pos hdirx] at ha ⊢
            rw [alookup_aerase] at ha
            by_cases hax : x = a
            · simp [hax] at ha
            · rw [if_neg hax] at ha
              obtain ⟨hreg, hne⟩ := hc a cfg ha
              refine ⟨?_, hne⟩
              rw [alookup_aerase]
              have hdd : cfgx.directory ≠ cfg.directory := by
                intro h
                have hx1 := (hc x cfgx hx).1
                rw [h, hreg] at hx1
                exact hax (Option.some.inj hx1).symm
              rw [if_neg hdd]
              exact hreg
      · -- registry entries stay backed by configs
        intro d a hreg
        cases hx : alookup s.configs x with
        | none =>
            simp only [rollbackStep, hx] at hreg ⊢
            exact hd d a hreg
        | some cfgx =>
            have hdirx := (hc x cfgx hx).2
            simp only [rollbackStep, hx, if_pos hdirx] at hreg ⊢
            rw [alookup_aerase] at hreg
            by_cases hdd : cfgx.directory = d
            · simp [hdd] at hreg
            · rw [if_neg hdd] at hreg
              obtain ⟨cfg, hcfg, hdir⟩ := hd d a hreg
              have hax : a ≠ x := by
                intro h
                subst h
                rw [hcfg] at hx
                cases Option.some.inj hx
                exact hdd hdir
              refine ⟨cfg, ?_, hdir⟩
              rw [alookup_aerase, if_neg (fun h => hax h.symm)]
              exact hcfg

theorem rollbackAll_empty (s : ServiceState) (hInv : Inv s) (hD : Dirs s) :
    rollbackAll s = emptyState := by
  obtain ⟨hnd, hmem, hc, hd⟩ := hInv
  have h := rollbackFold_empty s.initOrder.reverse s
    (fun a ha => List.mem_reverse.mpr ((hmem a).mpr ha))
    (fun a cfg hcfg => ⟨(hc a cfg hcfg).2, hD a cfg hcfg⟩)
    hd
  unfold rollbackAll
  cases hfold : List.foldl rollbackStep s s.initOrder.reverse with
  | mk cfgs reg ord =>
      rw [hfold] at h
      simp only [emptyState] at h ⊢
      simp [ServiceState.mk.injEq, h.1, h.2]

theorem Inv_empty : Inv emptyState := by
  refine ⟨List.nodup_nil, ?_, ?_, ?_⟩ <;>
    simp [emptyState, alookup]

theorem Dirs_empty : Dirs emptyState := by
  intro a cfg h
  simp [emptyState, alookup] at h

theorem Inv_commit (s : ServiceState) (a c : String)
    (files : List (String × String)) (hInv : Inv s) (hD : Dirs s)
    (hnotin : alookup s.configs a = none)
    (hdirfree : alookup s.directoryRegistry c = none)
    (hc : c ≠ "") :
    Inv (commit s a c files) ∧ Dirs (commit s a c files) := by
  obtain ⟨hnd, hmem, hcons, hback⟩ := hInv
  have hnotmem : a ∉ s.initOrder := by
    intro h
    have := (hmem a).mp h
    rw [hnotin] at this
    simp at this
  refine ⟨⟨?_, ?_, ?_, ?_⟩, ?_⟩
  · simp [commit, List.nodup_append, hnd, hnotmem]
  · intro b
    simp only [commit, List.mem_append, List.mem_singleton]
    rw [alookup_ainsert]
    by_cases hab : a = b
    · subst hab
      simp
    · rw [if_neg hab]
      constructor
      · rintro (h | h)
        · exact (hmem b).mp h
        · exact absurd h.symm hab
      · intro h
        exact Or.inl ((hmem b).mpr h)
  · intro b cfgb h
    simp only [commit] at h ⊢
    rw [alookup_ainsert] at h
    by_cases hab : a = b
    · rw [if_pos hab] at h
      cases Option.some.inj h
      subst hab
      refine ⟨rfl, ?_⟩
      rw [alookup_ainsert, if_pos rfl]
    · rw [if_neg hab] at h
      obtain ⟨halias, hreg⟩ := hcons b cfgb h
      refine ⟨halias, ?_⟩
      rw [alookup_ainsert]
      have hcd : c ≠ cfgb.directory := by
        intro hcd
        rw [hcd] at hdirfree
        rw [hdirfree] at hreg
        cases hreg
      rw [if_neg hcd]
      exact hreg
  · intro d b h
    simp only [commit] at h ⊢
    rw [alookup_ainsert] at h
    by_cases hcd : c = d
    · rw [if_pos hcd] at h
      cases Option.some.inj h
      subst hcd
      refine ⟨{ aliasName := a, directory := c, cslFiles := files,
                initialized := true }, ?_, rfl⟩
      rw [alookup_ainsert, if_pos rfl]
    · rw [if_neg hcd] at h
      obtain ⟨cfgb, hcfgb, hdir⟩ := hback d b h
      have hab : a ≠ b := by
        intro hab
        rw [← hab] at hcfgb
        rw [hnotin] at hcfgb
        cases hcfgb
      refine ⟨cfgb, ?_, hdir⟩
      rw [alookup_ainsert, if_neg hab]
      exact hcfgb
  · intro b cfgb h
    simp only [commit] at h
    rw [alookup_ainsert] at h
    by_cases hab : a = b
    · rw [if_pos hab] at h
      cases Option.some.inj h
      exact hc
    · rw [if_neg hab] at h
      exact hD b cfgb h

theorem eq_none_of_forall_not_some {α : Type} (o : Option α)
    (h : ∀ x, ¬ o = some x) : o = none := by
  cases o with
  | none => rfl
  | some x => exact absurd rfl (h x)

theorem rollbackOr_cases (s : ServiceState) (c : ErrCode) (m1 m2 : String) :
    (0 < s.initOrder.length ∧
     rollbackOr s c m1 m2 =
       (rollbackAll s,
        Except.error ⟨c, m1 ++ "; rolled back all " ++
          toString s.initOrder.length ++ " instance(s)"⟩)) ∨
    (s.initOrder = [] ∧ rollbackOr s c m1 m2 = (s, Except.error ⟨c, m2⟩)) := by
  unfold rollbackOr
  by_cases h : 0 < s.initOrder.length
  · exact Or.inl ⟨h, by rw [if_pos h]⟩
  · refine Or.inr ⟨List.length_eq_zero.mp (Nat.eq_zero_of_not_pos h), ?_⟩
    rw [if_neg h]

theorem init_state_cases (s : ServiceState) (req : InitRequest)
    (o : FsOracle) :
    (init s req o).1 = s ∨ (init s req o).1 = rollbackAll s ∨
    (∃ c files, alookup s.configs req.aliasName = none ∧
        alookup s.directoryRegistry c = none ∧
        o.canonResult = Except.ok c ∧ o.enumResult = Except.ok files ∧
        (init s req o).1 = commit s req.aliasName c files) := by
  have roll : ∀ (c' : ErrCode) (m1 m2 : String) (P : Prop),
      (rollbackOr s c' m1 m2).1 = s ∨
      (rollbackOr s c' m1 m2).1 = rollbackAll s ∨ P := by
    intro c' m1 m2 P
    rcases rollbackOr_cases s c' m1 m2 with ⟨_, h⟩ | ⟨_, h⟩
    · exact Or.inr (Or.inl (by rw [h]))
    · exact Or.inl (by rw [h])
  unfold init
  repeat' split
  all_goals first
    | exact roll _ _ _ _
    | exact Or.inl rfl
    | (refine Or.inr (Or.inr ⟨_, _, ?_, ?_, ?_, ?_, rfl⟩) <;>
        simp_all [Option.not_isSome_iff_eq_none])

theorem init_error_cases (s : ServiceState) (req : InitRequest)
    (o : FsOracle) (e : ErrInfo) (h : (init s req o).2 = Except.error e) :
    (0 < s.initOrder.length ∧ (init s req o).1 = rollbackAll s) ∨
    (s.initOrder = [] ∧ (init s req o).1 = s) ∨
    ((init s req o).1 = s ∧ e.code = ErrCode.failedPrecondition ∧
     dupDirHit s req o) := by
  have roll2 : ∀ (c' : ErrCode) (m1 m2 : String) (P : Prop),
      (0 < s.initOrder.length ∧ (rollbackOr s c' m1 m2).1 = rollbackAll s) ∨
      (s.initOrder = [] ∧ (rollbackOr s c' m1 m2).1 = s) ∨ P := by
    intro c' m1 m2 P
    rcases rollbackOr_cases s c' m1 m2 with ⟨hl, hcase⟩ | ⟨hl, hcase⟩
    · exact Or.inl ⟨hl, by rw [hcase]⟩
    · exact Or.inr (Or.inl ⟨hl, by rw [hcase]⟩)
  revert h
  unfold init
  repeat' split
  all_goals intro h
  all_goals first
    | exact roll2 _ _ _ _
    | exact Except.noConfusion h
    | (refine Or.inr (Or.inr ⟨rfl, by rw [← Except.error.inj h], ?_⟩);
       simp_all [dupDirHit, Option.isSome_iff_exists];
       exact eq_none_of_forall_not_some _ (by assumption))

theorem deepMerge_map (m1 m2 : List (String × Value)) :
    deepMerge (Value.map m1) (Value.map m2) = Value.map (mergeMaps m1 m2) := by
  simp [deepMerge, mergeMaps]

theorem mergeInto_some (v v2 : Value) :
    mergeInto v (some v2) = deepMerge v v2 := by
  simp [mergeInto]

theorem mergeInto_none (v : Value) : mergeInto v none = v := by
  simp [mergeInto]

theorem mergeEntries_alookup_some (m1 m2 : List (String × Value))
    (k : String) (v1 : Value) (h : alookup m1 k = some v1) :
    alookup (mergeEntries m1 m2) k = some (mergeInto v1 (alookup m2 k)) := by
  induction m1 with
  | nil => simp [alookup] at h
  | cons hd tl ih =>
      obtain ⟨k0, v0⟩ := hd
      by_cases hk : k0 = k
      · subst hk
        rw [alookup, if_pos rfl] at h
        cases Option.some.inj h
        simp [mergeEntries, alookup]
      · rw [alookup, if_neg hk] at h
        simp [mergeEntries, alookup, hk, ih h]

theorem mergeEntries_alookup_none (m1 m2 : List (String × Value))
    (k : String) (h : alookup m1 k = none) :
    alookup (mergeEntries m1 m2) k = none := by
  induction m1 with
  | nil => simp [mergeEntries, alookup]
  | cons hd tl ih =>
      obtain ⟨k0, v0⟩ := hd
      by_cases hk : k0 = k
      · subst hk
        rw [alookup, if_pos rfl] at h
        cases h
      · rw [alookup, if_neg hk] at h
        simp [mergeEntries, alookup, hk, ih h]

theorem alookup_append_some {α : Type} (A B : List (String × α))
    (k : String) (v : α) (h : alookup A k = some v) :
    alookup (A ++ B) k = some v := by
  induction A with
  | nil => simp [alookup] at h
  | cons hd tl ih =>
      obtain ⟨k0, v0⟩ := hd
      by_cases hk : k0 = k
      · subst hk
        rw [alookup, if_pos rfl] at h
        simp [alookup, h]
      · rw [alookup, if_neg hk] at h
        simp [alookup, hk, ih h]

theorem alookup_append_none {α : Type} (A B : List (String × α))
    (k : String) (h : alookup A k = none) :
    alookup (A ++ B) k = alookup B k := by
  induction A with
  | nil => simp [alookup]
  | cons hd tl ih =>
      obtain ⟨k0, v0⟩ := hd
      by_cases hk : k0 = k
      · subst hk
        rw [alookup, if_pos rfl] at h
        cases h
      · rw [alookup, if_neg hk] at h
        simp [alookup, hk, ih h]

theorem alookup_filter_isNone (m1 m2 : List (String × Value)) (k : String)
    (h : alookup m1 k = none) :
    alookup (m2.filter (fun kv => (alookup m1 kv.1).isNone)) k =
      alookup m2 k := by
  induction m2 with
  | nil => simp
  | cons hd tl ih =>
      obtain ⟨k2, v2⟩ := hd
      by_cases hk : k2 = k
      · subst hk
        have hnone : (alookup m1 k2).isNone := by simp [h]
        simp [List.filter_cons, hnone, alookup]
      · cases hiso : (alookup m1 k2).isNone with
        | true => simp [List.filter_cons, hiso, alookup, hk, ih]
        | false => simp [List.filter_cons, hiso, alookup, hk, ih]

theorem mergeMaps_collide (m1 m2 : List (String × Value)) (k : String)
    (v1 v2 : Value) (h1 : alookup m1 k = some v1)
    (h2 : alookup m2 k = some v2) :
    alookup (mergeMaps m1 m2) k = some (deepMerge v1 v2) := by
  unfold mergeMaps
  rw [alookup_append_some _ _ _ _
    (mergeEntries_alookup_some m1 m2 k v1 h1), h2, mergeInto_some]

theorem mergeMaps_left (m1 m2 : List (String × Value)) (k : String)
    (v1 : Value) (h1 : alookup m1 k = some v1)
    (h2 : alookup m2 k = none) :
    alookup (mergeMaps m1 m2) k = some v1 := by
  unfold mergeMaps
  rw [alookup_append_some _ _ _ _
    (mergeEntries_alookup_some m1 m2 k v1 h1), h2, mergeInto_none]

theorem mergeMaps_right (m1 m2 : List (String × Value)) (k : String)
    (v2 : Value) (h1 : alookup m1 k = none)
    (h2 : alookup m2 k = some v2) :
    alookup (mergeMaps m1 m2) k = some v2 := by
  unfold mergeMaps
  rw [alookup_append_none _ _ _ (mergeEntries_alookup_none m1 m2 k h1),
    alookup_filter_isNone m1 m2 k h1, h2]

theorem deepMerge_later_wins (v1 v2 : Value)
    (h : ∀ m, v2 ≠ Value.map m) : deepMerge v1 v2 = v2 := by
  cases v1 with
  | str s => simp [deepMerge]
  | list l => simp [deepMerge]
  | map m1 =>
      cases v2 with
      | str s => simp [deepMerge]
      | list l => simp [deepMerge]
      | map m2 => exact absurd rfl (h m2)

theorem sortD : sortByKey cfgD.cslFiles =
    [("alpha", "/data/d/alpha.csl"), ("beta", "/data/d/beta.csl")] := by
  simp [cfgD, sortByKey, insertByKey, strLe, charListLe]

theorem parseD_alpha : parseD "/data/d/alpha.csl" = Except.ok docAlpha := by
  simp [parseD, docAlpha]

theorem parseD_beta : parseD "/data/d/beta.csl" = Except.ok docBeta := by
  simp [parseD, docBeta]

theorem merge_empty_alpha : deepMerge (Value.map []) docAlpha = docAlpha := by
  simp [docAlpha, deepMerge, mergeEntries, mergeInto, alookup]

theorem merge_alpha_beta : deepMerge docAlpha docBeta = docMergedD := by
  simp [docAlpha, docBeta, docMergedD, deepMerge, mergeEntries, mergeInto,
    alookup]

theorem mergeFold_nil (parse : String → Except String Value) (acc : Value) :
    mergeFold parse [] acc = Except.ok acc := rfl

theorem mergeFold_cons_ok (parse : String → Except String Value)
    (a fp : String) (rest : List (String × String)) (acc doc : Value)
    (h : parse fp = Except.ok doc) :
    mergeFold parse ((a, fp) :: rest) acc =
      mergeFold parse rest (deepMerge acc doc) := by
  simp only [mergeFold, h]

theorem mergedDoc_D : mergedDoc cfgD.cslFiles parseD = Except.ok docMergedD := by
  rw [mergedDoc, sortD,
      mergeFold_cons_ok parseD "alpha" "/data/d/alpha.csl" _ _ _ parseD_alpha,
      merge_empty_alpha,
      mergeFold_cons_ok parseD "beta" "/data/d/beta.csl" _ _ _ parseD_beta,
      merge_alpha_beta,
      mergeFold_nil]

theorem fetchSpecFile_wildcard_ok (cfg : InstanceConfig)
    (nested : List String) (parse : String → Except String Value)
    (d : Value) (h : mergedDoc cfg.cslFiles parse = Except.ok d) :
    fetchSpecFile cfg wildcardToken nested parse =
      match navigateSpec d nested with
      | Except.error e => Except.error e
      | Except.ok v => Except.ok (toProtoStruct v) := by
  simp only [fetchSpecFile, eq_self_iff_true, if_true, h]

theorem detectD : detectMode sD "*" = FetchMode.implicitMode cfgD := by
  simp [detectMode, alookup, sD, cfgD]

theorem fetchSpec_D : fetchSpec sD [wildcardToken] parseD =
    Except.ok docMergedD := by
  have h1 : ("*" : String) ≠ "" := by decide
  simp only [fetchSpec, wildcardToken, detectD, if_neg h1]
  rw [show fetchSpecFile cfgD "*" [] parseD =
        fetchSpecFile cfgD wildcardToken [] parseD from rfl,
      fetchSpecFile_wildcard_ok cfgD [] parseD docMergedD mergedDoc_D]
  simp only [navigateSpec, docMergedD, toProtoStruct]

theorem toProtoStruct_shape (v : Value) : ∃ m, toProtoStruct v = Value.map m := by
  cases v with
  | str s => exact ⟨[("value", Value.str s)], rfl⟩
  | list l => exact ⟨[("value", Value.list l)], rfl⟩
  | map m => exact ⟨m, rfl⟩

theorem fetchFile_ok_shape (cfg : InstanceConfig) (b : String)
    (nested full : List String) (idx : Nat)
    (parse : String → Except String Value) (r : Value)
    (h : fetchFile cfg b nested full idx parse = Except.ok r) :
    ∃ m, r = Value.map m := by
  unfold fetchFile at h
  repeat' split at h
  all_goals first
    | exact Except.noConfusion h
    | exact (Except.ok.inj h) ▸ toProtoStruct_shape _

theorem fetch_ok_shape (s : ServiceState) (p : List String)
    (parse : String → Except String Value) (r : Value)
    (h : fetch s p parse = Except.ok r) : ∃ m, r = Value.map m := by
  unfold fetch at h
  repeat' split at h
  all_goals first
    | exact Except.noConfusion h
    | exact fetchFile_ok_shape _ _ _ _ _ _ _ h

theorem fetch_noInstances (s : ServiceState) (h : s.configs = [])
    (p0 : String) (rest : List String)
    (parse : String → Except String Value) (hp : p0 ≠ "") :
    fetch s (p0 :: rest) parse =
      Except.error ⟨ErrCode.failedPrecondition,
        "no provider instances initialized"⟩ := by
  simp [fetch, detectMode, h, alookup, hp]

theorem rollbackAll_single (s : ServiceState) (a : String)
    (cfg : InstanceConfig) (hone : s.configs = [(a, cfg)])
    (horder : s.initOrder = [a]) :
    (rollbackAll s).configs = [] ∧ (rollbackAll s).initOrder = [] := by
  unfold rollbackAll
  rw [horder]
  simp only [List.reverse_cons, List.reverse_nil, List.nil_append,
    List.foldl_cons, List.foldl_nil]
  unfold rollbackStep
  rw [hone]
  simp [alookup, aerase]

theorem Inv_s1 : Inv s1 := by
  refine ⟨by simp [s1], ?_, ?_, ?_⟩
  · intro a
    by_cases h : "first" = a
    · subst h
      simp [s1, alookup]
    · have h' : a ≠ "first" := fun hh => h hh.symm
      simp [s1, alookup, h, h']
  · intro a cfg hc
    by_cases h : "first" = a
    · subst h
      rw [s1] at hc
      rw [alookup, if_pos rfl] at hc
      cases Option.some.inj hc
      exact ⟨rfl, rfl⟩
    · rw [s1] at hc
      rw [alookup, if_neg h, alookup] at hc
      cases hc
  · intro d a hd
    by_cases h : "/data/dir1" = d
    · subst h
      rw [s1] at hd
      rw [alookup, if_pos rfl] at hd
      cases Option.some.inj hd
      exact ⟨cfg1, rfl, rfl⟩
    · rw [s1] at hd
      rw [alookup, if_neg h, alookup] at hd
      cases hd

theorem Dirs_s1 : Dirs s1 := by
  intro a cfg hc
  by_cases h : "first" = a
  · subst h
    rw [s1] at hc
    rw [alookup, if_pos rfl] at hc
    cases Option.some.inj hc
    decide
  · rw [s1] at hc
    rw [alookup, if_neg h, alookup] at hc
    cases hc

/-- C1 (counterexample): the claim demands a full rollback for every
failing Init while an instance is committed, including the
duplicate-canonical-directory check; but when Init("second") fails that
check after Init("first") committed, the registry is left unchanged and
non-empty, not empty. -/
theorem C1_counterexample :
    init s1 req2 oDup =
      (s1, Except.error ⟨ErrCode.failedPrecondition,
        dupDirMsg "/data/dir1" "first" "second"⟩) ∧
    s1.configs ≠ [] :=
  ⟨rfl, by decide⟩

/-- C1 (amended): every Init failure while at least one instance is
committed performs the full rollback to the empty registry, except the
duplicate-canonical-directory check, which fails with the Conflict-coded
error and leaves the state untouched. -/
theorem C1_rollback_on_failure (s : ServiceState) (req : InitRequest)
    (o : FsOracle) (hInv : Inv s) (hD : Dirs s) (hne : s.initOrder ≠ [])
    (e : ErrInfo) (he : (init s req o).2 = Except.error e) :
    (init s req o).1 = emptyState ∨
    ((init s req o).1 = s ∧ e.code = ErrCode.failedPrecondition ∧
     dupDirHit s req o) := by
  rcases init_error_cases s req o e he with ⟨_, h⟩ | ⟨h0, _⟩ | h
  · exact Or.inl (by rw [h, rollbackAll_empty s hInv hD])
  · exact absurd h0 hne
  · exact Or.inr h

/-- C1 (witness): a concrete failing Init (empty alias) over the
registry holding "first" rolls everything back to the empty registry. -/
theorem C1_witness :
    (Inv s1 ∧ Dirs s1 ∧ s1.initOrder ≠ [] ∧
     (init s1 reqEmptyAlias oIdle).2 =
       Except.error ⟨ErrCode.invalidArgument,
         "alias \"\": alias cannot be empty; rolled back all 1 instance(s)"⟩) ∧
    ((init s1 reqEmptyAlias oIdle).1 = emptyState ∨
     ((init s1 reqEmptyAlias oIdle).1 = s1 ∧
      ErrInfo.code ⟨ErrCode.invalidArgument,
        "alias \"\": alias cannot be empty; rolled back all 1 instance(s)"⟩ =
        ErrCode.failedPrecondition ∧
      dupDirHit s1 reqEmptyAlias oIdle)) :=
  ⟨⟨Inv_s1, Dirs_s1, by decide, rfl⟩,
   C1_rollback_on_failure s1 reqEmptyAlias oIdle Inv_s1 Dirs_s1
     (by decide) _ rfl⟩

/-- C2: a second Init naming an already-registered canonical directory
fails with the Conflict-kind (FailedPrecondition) error whose message
names both aliases and the canonical path, performs no rollback, and
leaves the registry holding exactly the first instance. -/
theorem C2_duplicate_directory_conflict (s : ServiceState)
    (req : InitRequest) (o : FsOracle) (a0 : String)
    (cfg0 : InstanceConfig) (c : String)
    (hone : s.configs = [(a0, cfg0)])
    (hreq : req.aliasName ≠ "")
    (hnew : alookup s.configs req.aliasName = none)
    (hdir : ∃ d, alookup req.config "directory" = some (ConfigValue.str d))
    (habs : ∃ ap, absResolve req.sourceFilePath o = Except.ok ap)
    (hstat : o.statOutcome = StatOutcome.ok true)
    (hcanon : o.canonResult = Except.ok c)
    (hreg : alookup s.directoryRegistry c = some a0) :
    init s req o = (s, Except.error ⟨ErrCode.failedPrecondition,
      dupDirMsg c a0 req.aliasName⟩) ∧
    (init s req o).1.configs = [(a0, cfg0)] := by
  obtain ⟨d, hd⟩ := hdir
  obtain ⟨ap, hap⟩ := habs
  have h2 : ¬ (alookup s.configs req.aliasName).isSome = true := by
    simp [hnew]
  have hmain : init s req o = (s, Except.error ⟨ErrCode.failedPrecondition,
      dupDirMsg c a0 req.aliasName⟩) := by
    simp [init, hreq, h2, hd, hap, hstat, hcanon, hreg]
  exact ⟨hmain, by rw [hmain]; exact hone⟩

/-- C2 (witness): Init("second") over the same canonical directory as the
committed "first" fails with the Conflict error naming both aliases and
the path, and the registry still holds exactly "first". -/
theorem C2_witness :
    (s1.configs = [("first", cfg1)] ∧ ("second" : String) ≠ "" ∧
     alookup s1.configs "second" = none ∧
     oDup.statOutcome = StatOutcome.ok true) ∧
    (init s1 req2 oDup = (s1, Except.error ⟨ErrCode.failedPrecondition,
       dupDirMsg "/data/dir1" "first" "second"⟩) ∧
     (init s1 req2 oDup).1.configs = [("first", cfg1)]) :=
  ⟨⟨rfl, by decide, rfl, rfl⟩,
   C2_duplicate_directory_conflict s1 req2 oDup "first" cfg1 "/data/dir1"
     rfl (by decide) rfl ⟨"/data/dir1", rfl⟩ ⟨"/data/dir1", rfl⟩ rfl rfl rfl⟩

/-- C3: wildcard fetch resolution (modelled from the spec, the feature is
absent from src) builds the merged document by parsing the instance's
files in lexicographically-ascending basename order and deep-merging
left-to-right, where colliding values merge recursively, colliding
non-map values take the later source, one-sided keys pass through, and
Scenario D merges into app with name "alpha", port "2222", env "prod". -/
theorem C3_wildcard_merge :
    (∀ m1 m2, deepMerge (Value.map m1) (Value.map m2) =
        Value.map (mergeMaps m1 m2)) ∧
    (∀ m1 m2 k v1 v2, alookup m1 k = some v1 → alookup m2 k = some v2 →
        alookup (mergeMaps m1 m2) k = some (deepMerge v1 v2)) ∧
    (∀ m1 m2 k v1, alookup m1 k = some v1 → alookup m2 k = none →
        alookup (mergeMaps m1 m2) k = some v1) ∧
    (∀ m1 m2 k v2, alookup m1 k = none → alookup m2 k = some v2 →
        alookup (mergeMaps m1 m2) k = some v2) ∧
    (∀ v1 v2, (∀ m, v2 ≠ Value.map m) → deepMerge v1 v2 = v2) ∧
    fetchSpec sD [wildcardToken] parseD =
      Except.ok (Value.map [("app",
        Value.map [("name", Value.str "alpha"), ("port", Value.str "2222"),
                   ("env", Value.str "prod")])]) :=
  ⟨deepMerge_map, mergeMaps_collide, mergeMaps_left, mergeMaps_right,
   deepMerge_later_wins, fetchSpec_D⟩

/-- C3 (witness): concrete collision where the merged map binds the key
to the recursive merge of the two values. -/
theorem C3_witness :
    alookup (mergeMaps [("k", Value.str "1")] [("k", Value.str "2")]) "k" =
      some (deepMerge (Value.str "1") (Value.str "2")) :=
  C3_wildcard_merge.2.1 [("k", Value.str "1")] [("k", Value.str "2")] "k"
    (Value.str "1") (Value.str "2") rfl rfl

/-- C4: for a non-empty first segment, mode detection always lands in
exactly one of four outcomes — explicit iff segment 0 is a registered
alias, implicit iff it is not and exactly one instance exists,
FailedPrecondition iff no instance exists, and the NotFound alias-prefix
hint iff several instances exist and segment 0 matches none. -/
theorem C4_mode_detection_total (s : ServiceState) (p0 : String)
    (h : p0 ≠ "") :
    ((∃ cfg, detectMode s p0 = FetchMode.explicitMode cfg) ∨
     (∃ cfg, detectMode s p0 = FetchMode.implicitMode cfg) ∨
     detectMode s p0 = FetchMode.notInitialized ∨
     detectMode s p0 = FetchMode.ambiguousAlias) ∧
    (∀ cfg, detectMode s p0 = FetchMode.explicitMode cfg ↔
        alookup s.configs p0 = some cfg) ∧
    (∀ cfg, detectMode s p0 = FetchMode.implicitMode cfg ↔
        (alookup s.configs p0 = none ∧ ∃ a, s.configs = [(a, cfg)])) ∧
    (detectMode s p0 = FetchMode.notInitialized ↔ s.configs = []) ∧
    (detectMode s p0 = FetchMode.ambiguousAlias ↔
        (alookup s.configs p0 = none ∧ 2 ≤ s.configs.length)) ∧
    (∀ rest parse, s.configs = [] →
        fetch s (p0 :: rest) parse =
          Except.error ⟨ErrCode.failedPrecondition,
            "no provider instances initialized"⟩) ∧
    (∀ rest parse, alookup s.configs p0 = none → 2 ≤ s.configs.length →
        fetch s (p0 :: rest) parse =
          Except.error ⟨ErrCode.notFound, ambiguousMsg p0⟩) := by
  refine ⟨?_, ?_, ?_, ?_, ?_, ?_, ?_⟩
  · unfold detectMode
    cases alookup s.configs p0 with
    | some c => exact Or.inl ⟨c, rfl⟩
    | none =>
        cases s.configs with
        | nil => exact Or.inr (Or.inr (Or.inl rfl))
        | cons hd tl =>
            obtain ⟨a, c⟩ := hd
            cases tl with
            | nil => exact Or.inr (Or.inl ⟨c, rfl⟩)
            | cons hd2 tl2 => exact Or.inr (Or.inr (Or.inr rfl))
  · intro cfg
    unfold detectMode
    cases hl : alookup s.configs p0 with
    | some c => simp
    | none =>
        cases hc : s.configs with
        | nil => simp
        | cons hd tl =>
            obtain ⟨a, c⟩ := hd
            cases tl with
            | nil => simp
            | cons hd2 tl2 => simp
  · intro cfg
    unfold detectMode
    cases hl : alookup s.configs p0 with
    | some c => simp
    | none =>
        cases hc : s.configs with
        | nil => simp
        | cons hd tl =>
            obtain ⟨a, c⟩ := hd
            cases tl with
            | nil => simp
            | cons hd2 tl2 => simp
  · unfold detectMode
    cases hl : alookup s.configs p0 with
    | some c =>
        constructor
        · intro hcontra
          simp at hcontra
        · intro hnil
          rw [hnil] at hl
          simp [alookup] at hl
    | none =>
        cases hc : s.configs with
        | nil => simp
        | cons hd tl =>
            obtain ⟨a, c⟩ := hd
            cases tl with
            | nil => simp
            | cons hd2 tl2 => simp
  · unfold detectMode
    cases hl : alookup s.configs p0 with
    | some c =>
        constructor
        · intro hcontra
          simp at hcontra
        · intro hand
          simp [hl] at hand
    | none =>
        cases hc : s.configs with
        | nil => simp
        | cons hd tl =>
            obtain ⟨a, c⟩ := hd
            cases tl with
            | nil => simp
            | cons hd2 tl2 => simp
  · intro rest parse h0
    simp [fetch, detectMode, h0, alookup, h]
  · intro rest parse hnone hlen
    cases hc : s.configs with
    | nil => rw [hc] at hlen; simp at hlen
    | cons hd tl =>
        cases tl with
        | nil => rw [hc] at hlen; simp at hlen
        | cons hd2 tl2 =>
            rw [hc] at hnone
            simp [fetch, detectMode, hc, hnone, h]

/-- C4 (witness): mode detection at the concrete single-instance registry
with a non-alias first segment lands in one of the four outcomes. -/
theorem C4_witness :
    (("app" : String) ≠ "") ∧
    ((∃ cfg, detectMode sX "app" = FetchMode.explicitMode cfg) ∨
     (∃ cfg, detectMode sX "app" = FetchMode.implicitMode cfg) ∨
     detectMode sX "app" = FetchMode.notInitialized ∨
     detectMode sX "app" = FetchMode.ambiguousAlias) :=
  ⟨by decide, (C4_mode_detection_total sX "app" (by decide)).1⟩

/-- C5: during nested navigation (modelled from the spec, the wildcard
feature is absent from src) a trailing wildcard returns the current value
verbatim when it is a map and fails InvalidInput when it is not;
Scenario F's wildcard after a scalar is an InvalidInput error. -/
theorem C5_trailing_wildcard :
    (∀ m, navigateSpec (Value.map m) [wildcardToken] =
        Except.ok (Value.map m)) ∧
    (∀ v, (∀ m, v ≠ Value.map m) →
        navigateSpec v [wildcardToken] =
          Except.error ⟨ErrCode.invalidArgument,
            "trailing wildcard applied to a value that is not a map"⟩) ∧
    fetchSpec sX ["x", "app", "name", wildcardToken] parseX =
      Except.error ⟨ErrCode.invalidArgument,
        "trailing wildcard applied to a value that is not a map"⟩ := by
  refine ⟨fun m => rfl, ?_, rfl⟩
  intro v hv
  cases v with
  | str s => rfl
  | list l => rfl
  | map m => exact absurd rfl (hv m)

/-- C5 (witness): the trailing wildcard applied to a concrete scalar is
the InvalidInput error. -/
theorem C5_witness :
    navigateSpec (Value.str "myapp") [wildcardToken] =
      Except.error ⟨ErrCode.invalidArgument,
        "trailing wildcard applied to a value that is not a map"⟩ :=
  C5_trailing_wildcard.2.1 (Value.str "myapp")
    (fun _ hm => Value.noConfusion hm)

/-- C6 (counterexample): a Fetch path with an empty segment at position 1
fails with NotFound, not with the InvalidInput kind the claim demands for
empty segments at any position. -/
theorem C6_counterexample :
    fetch sX ["app", ""] parseX =
      Except.error ⟨ErrCode.notFound,
        "path element \"\" not found in file \"app\" (provider instance \"x\")"⟩ ∧
    ErrCode.notFound ≠ ErrCode.invalidArgument :=
  ⟨rfl, by decide⟩

/-- C6 (amended): only an empty path or an empty segment at position 0
yields the InvalidInput-kind error; an empty segment at a later position
is treated as an ordinary filename or key and yields NotFound when it is
absent. -/
theorem C6_empty_segment_validation :
    (∀ (s : ServiceState) (parse : String → Except String Value),
        fetch s [] parse =
          Except.error ⟨ErrCode.invalidArgument, "path cannot be empty"⟩) ∧
    (∀ (s : ServiceState) (rest : List String)
        (parse : String → Except String Value),
        fetch s ("" :: rest) parse =
          Except.error ⟨ErrCode.invalidArgument, "path[0] cannot be empty"⟩) ∧
    fetch sX ["app", ""] parseX =
      Except.error ⟨ErrCode.notFound,
        "path element \"\" not found in file \"app\" (provider instance \"x\")"⟩ :=
  ⟨fun _ _ => rfl, fun _ _ _ => rfl, rfl⟩

/-- C7: Init — whether it succeeds, fails with rollback, or fails without
state change — and Shutdown preserve the registry consistency invariant
(mutually-consistent maps, order holding exactly the committed aliases
without duplicates); the read-only operations are pure functions of the
state in this embedding, mirroring that the source read handlers never
assign a field. -/
theorem C7_invariant_preserved (s : ServiceState) (req : InitRequest)
    (o : FsOracle) (hInv : Inv s) (hD : Dirs s)
    (hcanon : ∀ c, o.canonResult = Except.ok c → c ≠ "") :
    (Inv (init s req o).1 ∧ Dirs (init s req o).1) ∧
    (Inv (shutdown s).1 ∧ Dirs (shutdown s).1) := by
  constructor
  · rcases init_state_cases s req o with h | h |
      ⟨c, files, hnone, hfree, hcanonEq, _, h⟩
    · rw [h]
      exact ⟨hInv, hD⟩
    · rw [h, rollbackAll_empty s hInv hD]
      exact ⟨Inv_empty, Dirs_empty⟩
    · rw [h]
      exact Inv_commit s req.aliasName c files hInv hD hnone hfree
        (hcanon c hcanonEq)
  · have hsh : (shutdown s).1 = emptyState := by
      simp [shutdown, emptyState]
    rw [hsh]
    exact ⟨Inv_empty, Dirs_empty⟩

/-- C7 (witness): the invariant is preserved by a concrete Init over the
empty registry with the concrete filesystem oracle. -/
theorem C7_witness :
    (Inv emptyState ∧ Dirs emptyState ∧
     (∀ c, oDup.canonResult = Except.ok c → c ≠ "")) ∧
    ((Inv (init emptyState req2 oDup).1 ∧ Dirs (init emptyState req2 oDup).1) ∧
     (Inv (shutdown emptyState).1 ∧ Dirs (shutdown emptyState).1)) :=
  ⟨⟨Inv_empty, Dirs_empty, fun c hc => by
      simp [oDup] at hc
      subst hc
      decide⟩,
   C7_invariant_preserved emptyState req2 oDup Inv_empty Dirs_empty
     (fun c hc => by
       simp [oDup] at hc
       subst hc
       decide)⟩

/-- C8: with exactly one instance committed under alias a, a second Init
with the same alias fails and rolls back the existing instance, leaving
zero instances, so a subsequent valid Fetch fails FailedPrecondition
("no provider instances initialized") instead of resolving against the
previously working instance. -/
theorem C8_same_alias_reinit_rolls_back (s : ServiceState) (a : String)
    (cfg : InstanceConfig) (req : InitRequest) (o : FsOracle)
    (hreq : req.aliasName = a) (hone : s.configs = [(a, cfg)])
    (horder : s.initOrder = [a]) :
    ((init s req o).1.configs = [] ∧ (init s req o).1.initOrder = [] ∧
     ∃ e, (init s req o).2 = Except.error e) ∧
    (∀ p0 rest parse, p0 ≠ "" →
        fetch (init s req o).1 (p0 :: rest) parse =
          Except.error ⟨ErrCode.failedPrecondition,
            "no provider instances initialized"⟩) := by
  have hlen : 0 < s.initOrder.length := by
    rw [horder]
    simp
  have hroll : (init s req o).1 = rollbackAll s ∧
      ∃ e, (init s req o).2 = Except.error e := by
    unfold init
    by_cases ha : req.aliasName = ""
    · rw [if_pos ha]
      unfold rollbackOr
      rw [if_pos hlen]
      exact ⟨rfl, _, rfl⟩
    · have hsome : (alookup s.configs req.aliasName).isSome = true := by
        rw [hreq, hone]
        simp [alookup]
      rw [if_neg ha, if_pos hsome]
      unfold rollbackOr
      rw [if_pos hlen]
      exact ⟨rfl, _, rfl⟩
  obtain ⟨hc, he⟩ := rollbackAll_single s a cfg hone horder
  refine ⟨⟨by rw [hroll.1]; exact hc, by rw [hroll.1]; exact he, hroll.2⟩, ?_⟩
  intro p0 rest parse hp
  rw [hroll.1]
  exact fetch_noInstances (rollbackAll s) hc p0 rest parse hp

/-- C8 (witness): re-initializing the sole instance "x" empties the
registry and makes the concrete Fetch fail FailedPrecondition. -/
theorem C8_witness :
    (reqX2.aliasName = "x" ∧ sX.configs = [("x", cfgX)] ∧
     sX.initOrder = ["x"] ∧ (("app" : String) ≠ "")) ∧
    ((init sX reqX2 oIdle).1.configs = [] ∧
     (init sX reqX2 oIdle).1.initOrder = [] ∧
     ∃ e, (init sX reqX2 oIdle).2 = Except.error e) ∧
    fetch (init sX reqX2 oIdle).1 ["app", "name"] parseX =
      Except.error ⟨ErrCode.failedPrecondition,
        "no provider instances initialized"⟩ :=
  ⟨⟨rfl, rfl, rfl, by decide⟩,
   (C8_same_alias_reinit_rolls_back sX "x" cfgX reqX2 oIdle rfl rfl rfl).1,
   (C8_same_alias_reinit_rolls_back sX "x" cfgX reqX2 oIdle rfl rfl rfl).2
     "app" ["name"] parseX (by decide)⟩

/-- C9: the result of every successful Fetch is map-shaped — a final map
value is returned as-is and any other final value is wrapped in a
single-entry map under the fixed key "value"; Scenario B's scalar fetch
returns the map binding "value" to "myapp". -/
theorem C9_result_shaping :
    (∀ m, toProtoStruct (Value.map m) = Value.map m) ∧
    (∀ v, (∀ m, v ≠ Value.map m) →
        toProtoStruct v = Value.map [("value", v)]) ∧
    (∀ s p parse r, fetch s p parse = Except.ok r → ∃ m, r = Value.map m) ∧
    fetch sX ["app", "name"] parseX =
      Except.ok (Value.map [("value", Value.str "myapp")]) := by
  refine ⟨fun m => rfl, ?_, fetch_ok_shape, rfl⟩
  intro v hv
  cases v with
  | str s => rfl
  | list l => rfl
  | map m => exact absurd rfl (hv m)

/-- C9 (witness): a concrete scalar is wrapped under the "value" key, and
the concrete Scenario B Fetch result is map-shaped. -/
theorem C9_witness :
    toProtoStruct (Value.str "myapp") =
      Value.map [("value", Value.str "myapp")] ∧
    ∃ m, Value.map [("value", Value.str "myapp")] = Value.map m :=
  ⟨C9_result_shaping.2.1 (Value.str "myapp")
     (fun _ hm => Value.noConfusion hm),
   C9_result_shaping.2.2.1 sX ["app", "name"] parseX
     (Value.map [("value", Value.str "myapp")]) rfl⟩

/-- C10: Shutdown never fails and unconditionally clears the instance
map, the directory index and the registration order, leaving the empty
state a fresh service starts from; running it twice equals running it
once. -/
theorem C10_shutdown_idempotent (s : ServiceState) :
    shutdown s = (emptyState, Except.ok ()) ∧
    shutdown (shutdown s).1 = shutdown s ∧
    Inv (shutdown s).1 := by
  have h : shutdown s = (emptyState, Except.ok ()) := by
    simp [shutdown, emptyState]
  refine ⟨h, ?_, ?_⟩
  · rw [h]
    simp [shutdown, emptyState]
  · rw [h]
    exact Inv_empty

end FileProvider
